import Mathlib

/-!
Verification of the ZIP archive writer (`src/write/mod.rs`).

The writer is embedded shallowly:

* bytes are `Nat` values below 256, byte buffers are `List Nat`;
* the asynchronous sink is a state `WState` holding the bytes written so far
  and the number of write calls made; a write either appends its whole buffer
  and returns the count, or fails, driven by a failure oracle `Nat → Bool`
  indexed by the call number (this models `AsyncWrite::write` returning `Err`);
* Rust's `as u32` / `as u16` casts are `% 4294967296` / `% 65536`;
* the per-algorithm compressors are opaque in the source (the
  `async_compression` crate), so the compressed form of a buffer is an
  arbitrary function `cf : Compression → List Nat → List Nat` quantified in
  the theorems; `Compression::Stored` bypasses it, exactly as in the source;
* `Utc::now()`-derived DOS time and date are opaque parameters `mt`, `md`;
* the error type `crate::error::Result<()>` is `Except Unit Unit`.
-/

/-- A byte: a natural number below 256. -/
abbrev Byte := Nat

/-- The `as u32` modulus. -/
def M32 : Nat := 4294967296

/-- The `as u16` modulus. -/
def M16 : Nat := 65536

/-- Compression algorithm selector, mirroring `crate::Compression`. -/
inductive Compression where
  | stored
  | deflate
  | bz
  | lzma
  | xz
  | zstd
deriving DecidableEq

/-- Modelled from the spec: `crate::Compression::to_u16` is not under `src/`;
the spec only calls it the "compression method code", so the canonical ZIP
method codes are used. No claim inspects these values. -/
def Compression.to_u16 : Compression → Nat
  | .stored => 0
  | .deflate => 8
  | .bz => 12
  | .lzma => 14
  | .xz => 95
  | .zstd => 93

/-- Mirror of `EntryOptions` (filename, extra, comment held as byte lists). -/
structure EntryOptions where
  filename : List Byte
  extra : List Byte
  comment : List Byte
  compression : Compression
deriving DecidableEq

/-- Mirror of `crate::header::GeneralPurposeFlag`. -/
structure GeneralPurposeFlag where
  encrypted : Bool
  data_descriptor : Bool
deriving DecidableEq

/-- Mirror of `crate::header::LocalFileHeader` (field values as `Nat`). -/
structure LocalFileHeader where
  version : Nat
  flags : GeneralPurposeFlag
  compression : Nat
  mod_time : Nat
  mod_date : Nat
  crc : Nat
  compressed_size : Nat
  uncompressed_size : Nat
  file_name_length : Nat
  extra_field_length : Nat
deriving DecidableEq

/-- Mirror of `crate::header::CentralDirectoryHeader`. -/
structure CentralDirectoryHeader where
  v_made_by : Nat
  v_needed : Nat
  flags : GeneralPurposeFlag
  compression : Nat
  mod_time : Nat
  mod_date : Nat
  crc : Nat
  compressed_size : Nat
  uncompressed_size : Nat
  file_name_length : Nat
  extra_field_length : Nat
  file_comment_length : Nat
  disk_start : Nat
  inter_attr : Nat
  exter_attr : Nat
  lh_offset : Nat
deriving DecidableEq

/-- Mirror of `crate::header::EndOfCentralDirectoryHeader`. -/
structure EndOfCentralDirectoryHeader where
  disk_num : Nat
  start_cent_dir_disk : Nat
  num_of_entries_disk : Nat
  num_of_entries : Nat
  size_cent_dir : Nat
  cent_dir_offset : Nat
  file_comm_length : Nat
deriving DecidableEq

/-- Mirror of `CentralDirectoryEntry` (write/mod.rs lines 24-27). -/
structure CentralDirectoryEntry where
  header : CentralDirectoryHeader
  opts : EntryOptions
deriving DecidableEq

/-- The `ZipFileWriter` state other than the sink itself: the pending central
directory entries and the cumulative byte count `written`
(write/mod.rs lines 29-33). The borrowed sink `writer: &mut W` is carried
separately as a `WState`. -/
structure ZipFileWriter where
  cd_entries : List CentralDirectoryEntry
  written : Nat
deriving DecidableEq

/-- The sink: bytes that have reached it, and how many write calls were made
(the call count indexes the failure oracle). -/
structure WState where
  sink : List Byte
  calls : Nat
deriving DecidableEq

/-- One `writer.write(buf).await?` call: with `fail` deciding by call number
whether the underlying `AsyncWrite` errors, either the whole buffer is
appended and its length returned, or the call fails and the sink is
unchanged. -/
def sinkWrite (fail : Nat → Bool) (buf : List Byte) (s : WState) :
    Except Unit (Nat × WState) :=
  if fail s.calls then .error ()
  else .ok (buf.length, ⟨s.sink ++ buf, s.calls + 1⟩)

/-- The oracle under which every sink write succeeds. -/
def noFail : Nat → Bool := fun _ => false

/-- One shift-and-conditionally-xor round of CRC-32 (reflected polynomial). -/
def crc32Step (c : Nat) : Nat :=
  if c % 2 = 1 then (c / 2) ^^^ 0xEDB88320 else c / 2

/-- Fold one byte into a running CRC-32 state: xor the byte in, then eight
`crc32Step` rounds. -/
def crc32Byte (c : Nat) (b : Byte) : Nat :=
  crc32Step (crc32Step (crc32Step (crc32Step
    (crc32Step (crc32Step (crc32Step (crc32Step (c ^^^ b))))))))

/-- Mirror of `compute_crc` (write/mod.rs lines 169-173). The source drives
the `crc32fast` crate, which the spec treats as the standard CRC-32
accumulator; that algorithm (init `0xFFFFFFFF`, reflected polynomial
`0xEDB88320`, final xor `0xFFFFFFFF`) is implemented here directly. -/
def compute_crc (data : List Byte) : Nat :=
  (data.foldl crc32Byte 0xFFFFFFFF) ^^^ 0xFFFFFFFF

/-- Modelled from the spec: the record signatures in `crate::delim` are not
under `src/`; the spec fixes them to the ZIP specification's magic constants.
Local-file-header signature. -/
def LFHD : Nat := 0x04034b50

/-- Modelled from the spec: central-directory-file-header signature
(`crate::delim::CDFHD`). -/
def CDFHD : Nat := 0x02014b50

/-- Modelled from the spec: end-of-central-directory signature
(`crate::delim::EOCDD`). -/
def EOCDD : Nat := 0x06054b50

/-- Little-endian two-byte encoding of a 16-bit value. -/
def le2 (n : Nat) : List Byte := [n % 256, n / 256 % 256]

/-- Little-endian four-byte encoding of a 32-bit value (`u32::to_le_bytes`). -/
def le4 (n : Nat) : List Byte :=
  [n % 256, n / 256 % 256, n / 65536 % 256, n / 16777216 % 256]

/-- Modelled from the spec: the general-purpose flag word (crate::header).
The deferred-descriptor flag is ZIP bit 3 and the encryption flag bit 0. -/
def GeneralPurposeFlag.toU16 (f : GeneralPurposeFlag) : Nat :=
  (if f.encrypted then 1 else 0) + (if f.data_descriptor then 8 else 0)

/-- Modelled from the spec: `LocalFileHeader::to_slice` lives in
`crate::header`, not under `src/`; the spec fixes it to the canonical ZIP
local-file-header fixed layout, 26 bytes after the signature, little-endian. -/
def LocalFileHeader.to_slice (h : LocalFileHeader) : List Byte :=
  le2 h.version ++ le2 h.flags.toU16 ++ le2 h.compression ++
  le2 h.mod_time ++ le2 h.mod_date ++ le4 h.crc ++
  le4 h.compressed_size ++ le4 h.uncompressed_size ++
  le2 h.file_name_length ++ le2 h.extra_field_length

/-- Modelled from the spec: `CentralDirectoryHeader::to_slice`
(crate::header), the canonical ZIP central-directory fixed layout, 42 bytes
after the signature, little-endian. -/
def CentralDirectoryHeader.to_slice (h : CentralDirectoryHeader) : List Byte :=
  le2 h.v_made_by ++ le2 h.v_needed ++ le2 h.flags.toU16 ++
  le2 h.compression ++ le2 h.mod_time ++ le2 h.mod_date ++ le4 h.crc ++
  le4 h.compressed_size ++ le4 h.uncompressed_size ++
  le2 h.file_name_length ++ le2 h.extra_field_length ++
  le2 h.file_comment_length ++ le2 h.disk_start ++ le2 h.inter_attr ++
  le4 h.exter_attr ++ le4 h.lh_offset

/-- Modelled from the spec: `EndOfCentralDirectoryHeader::to_slice`
(crate::header), the canonical ZIP end-of-central-directory fixed layout,
18 bytes after the signature, in the field order the spec's section 6
gives explicitly. -/
def EndOfCentralDirectoryHeader.to_slice (h : EndOfCentralDirectoryHeader) :
    List Byte :=
  le2 h.disk_num ++ le2 h.start_cent_dir_disk ++ le2 h.num_of_entries_disk ++
  le2 h.num_of_entries ++ le4 h.size_cent_dir ++ le4 h.cent_dir_offset ++
  le2 h.file_comm_length

/-- The `compressed_data` selection of `write_entry` (lines 41-48): `Stored`
passes the raw bytes through, every other algorithm goes to the opaque
compressor `cf`. -/
def compressedOf (cf : Compression → List Byte → List Byte)
    (c : Compression) (raw : List Byte) : List Byte :=
  match c with
  | .stored => raw
  | c => cf c raw

/-- The `LocalFileHeader` value `write_entry` builds (lines 52-63), with the
`as u32` / `as u16` casts made explicit. -/
def entryLfh (cf : Compression → List Byte → List Byte) (mt md : Nat)
    (opts : EntryOptions) (raw : List Byte) : LocalFileHeader :=
  { compressed_size := (compressedOf cf opts.compression raw).length % M32
    uncompressed_size := raw.length % M32
    compression := opts.compression.to_u16
    crc := compute_crc raw
    extra_field_length := opts.extra.length % M16
    file_name_length := opts.filename.length % M16
    mod_time := mt
    mod_date := md
    version := 0
    flags := ⟨false, false⟩ }

/-- The `CentralDirectoryHeader` value `write_entry` builds (lines 65-82):
descriptive fields copied from the local header, bookkeeping fields zero,
and `lh_offset` the writer's `written` counter cast `as u32`. -/
def entryCdh (cf : Compression → List Byte → List Byte) (mt md : Nat)
    (written : Nat) (opts : EntryOptions) (raw : List Byte) :
    CentralDirectoryHeader :=
  { v_made_by := 0
    v_needed := 0
    compressed_size := (entryLfh cf mt md opts raw).compressed_size
    uncompressed_size := (entryLfh cf mt md opts raw).uncompressed_size
    compression := (entryLfh cf mt md opts raw).compression
    crc := (entryLfh cf mt md opts raw).crc
    extra_field_length := (entryLfh cf mt md opts raw).extra_field_length
    file_name_length := (entryLfh cf mt md opts raw).file_name_length
    file_comment_length := opts.comment.length % M16
    mod_time := (entryLfh cf mt md opts raw).mod_time
    mod_date := (entryLfh cf mt md opts raw).mod_date
    flags := (entryLfh cf mt md opts raw).flags
    disk_start := 0
    inter_attr := 0
    exter_attr := 0
    lh_offset := written % M32 }

/-- Mirror of `ZipFileWriter::write_entry` (lines 40-93). The five
`self.written += self.writer.write(..).await?` statements are the five
`sinkWrite` calls; on a failing write the function returns early with the
`written` increments of the earlier, successful writes retained (the Rust
`?` operator on a `&mut self` method) and `cd_entries` untouched; the
central-directory entry is pushed only after all five writes succeed. -/
def ZipFileWriter.write_entry (w : ZipFileWriter) (fail : Nat → Bool)
    (cf : Compression → List Byte → List Byte) (mt md : Nat) (s : WState)
    (opts : EntryOptions) (raw_data : List Byte) :
    Except Unit Unit × ZipFileWriter × WState :=
  let compressed_data := compressedOf cf opts.compression raw_data
  let lf_header := entryLfh cf mt md opts raw_data
  let header := entryCdh cf mt md w.written opts raw_data
  match sinkWrite fail (le4 LFHD) s with
  | .error _ => (.error (), w, s)
  | .ok (n1, s1) =>
    match sinkWrite fail lf_header.to_slice s1 with
    | .error _ => (.error (), { w with written := w.written + n1 }, s1)
    | .ok (n2, s2) =>
      match sinkWrite fail opts.filename s2 with
      | .error _ => (.error (), { w with written := w.written + n1 + n2 }, s2)
      | .ok (n3, s3) =>
        match sinkWrite fail opts.extra s3 with
        | .error _ =>
          (.error (), { w with written := w.written + n1 + n2 + n3 }, s3)
        | .ok (n4, s4) =>
          match sinkWrite fail compressed_data s4 with
          | .error _ =>
            (.error (), { w with written := w.written + n1 + n2 + n3 + n4 }, s4)
          | .ok (n5, s5) =>
            (.ok (),
             { cd_entries := w.cd_entries ++ [⟨header, opts⟩]
               written := w.written + n1 + n2 + n3 + n4 + n5 }, s5)

/-- Outcome of calling a Rust function that may abort the task instead of
returning: `diverges` marks a call that never returns normally. -/
inductive MayDiverge (α : Type) where
  | diverges
  | returns (val : α)
deriving DecidableEq

/-- Mirror of `ZipFileWriter::stream_write_entry` (lines 95-97): the body is
only the `unimplemented` abort macro, so every call diverges instead of
producing a `Result`. -/
def ZipFileWriter.stream_write_entry (_w : ZipFileWriter)
    (_opts : EntryOptions) : MayDiverge (Except Unit Unit × ZipFileWriter) :=
  .diverges

/-- The two wrapping `cd_size +=` statements of `close` for one entry
(lines 110-111): `cd_size += 4 + 42 + filename.len() as u32` then
`cd_size += (extra.len() + comment.len()) as u32`, all in `u32`
arithmetic. -/
def cdStep (cd_size : Nat) (e : CentralDirectoryEntry) : Nat :=
  ((cd_size + (4 + 42 + e.opts.filename.length % M32) % M32) % M32
    + (e.opts.extra.length + e.opts.comment.length) % M32) % M32

/-- The per-entry loop of `close` (lines 103-112): for each pending entry
write signature, fixed header, filename, extra and comment, accumulating
`cd_size`; the loop's return counts write calls but ignores the returned
byte counts, exactly as the source does. -/
def writeCdLoop (fail : Nat → Bool) (entries : List CentralDirectoryEntry)
    (cd_size : Nat) (s : WState) : Except Unit Nat × WState :=
  match entries with
  | [] => (.ok cd_size, s)
  | e :: rest =>
    match sinkWrite fail (le4 CDFHD) s with
    | .error _ => (.error (), s)
    | .ok (_, s1) =>
      match sinkWrite fail e.header.to_slice s1 with
      | .error _ => (.error (), s1)
      | .ok (_, s2) =>
        match sinkWrite fail e.opts.filename s2 with
        | .error _ => (.error (), s2)
        | .ok (_, s3) =>
          match sinkWrite fail e.opts.extra s3 with
          | .error _ => (.error (), s3)
          | .ok (_, s4) =>
            match sinkWrite fail e.opts.comment s4 with
            | .error _ => (.error (), s4)
            | .ok (_, s5) => writeCdLoop fail rest (cdStep cd_size e) s5

/-- Mirror of `ZipFileWriter::close` (lines 99-128): capture `written` as the
central-directory offset, drain the pending entries, then write the
end-of-central-directory signature and record. -/
def ZipFileWriter.close (w : ZipFileWriter) (fail : Nat → Bool) (s : WState) :
    Except Unit Unit × WState :=
  let cd_offset := w.written
  match writeCdLoop fail w.cd_entries 0 s with
  | (.error _, s1) => (.error (), s1)
  | (.ok cd_size, s1) =>
    let header : EndOfCentralDirectoryHeader :=
      { disk_num := 0
        start_cent_dir_disk := 0
        num_of_entries_disk := w.cd_entries.length % M16
        num_of_entries := w.cd_entries.length % M16
        size_cent_dir := cd_size
        cent_dir_offset := cd_offset % M32
        file_comm_length := 0 }
    match sinkWrite fail (le4 EOCDD) s1 with
    | .error _ => (.error (), s1)
    | .ok (_, s2) =>
      match sinkWrite fail header.to_slice s2 with
      | .error _ => (.error (), s2)
      | .ok (_, s3) => (.ok (), s3)

/-- The byte sequence one successful `write_entry` call appends to the sink:
signature, fixed local header, filename, extra field, compressed data. -/
def entryBytes (cf : Compression → List Byte → List Byte) (mt md : Nat)
    (opts : EntryOptions) (raw : List Byte) : List Byte :=
  le4 LFHD ++ (entryLfh cf mt md opts raw).to_slice ++ opts.filename ++
  opts.extra ++ compressedOf cf opts.compression raw

/-- The byte sequence `close` writes for one pending central-directory
entry: signature, fixed header, filename, extra field, comment. -/
def cdEntryBytes (e : CentralDirectoryEntry) : List Byte :=
  le4 CDFHD ++ e.header.to_slice ++ e.opts.filename ++ e.opts.extra ++
  e.opts.comment

/-- The whole central-directory block `close` writes, in insertion order. -/
def cdBlockBytes : List CentralDirectoryEntry → List Byte
  | [] => []
  | e :: rest => cdEntryBytes e ++ cdBlockBytes rest

/-- The end-of-central-directory record `close` builds for a writer
(lines 114-122): zero disk fields, both entry counts `len() as u16`,
`size_cent_dir` the value the loop's wrapping accumulation reaches, and
`cent_dir_offset` the captured `written as u32`. -/
def eocdHeaderOf (w : ZipFileWriter) : EndOfCentralDirectoryHeader :=
  { disk_num := 0
    start_cent_dir_disk := 0
    num_of_entries_disk := w.cd_entries.length % M16
    num_of_entries := w.cd_entries.length % M16
    size_cent_dir := w.cd_entries.foldl cdStep 0
    cent_dir_offset := w.written % M32
    file_comm_length := 0 }

/-- A pass-through stand-in for the opaque compressor, used by concrete
scenarios whose compression is `Stored` (the compressor is never consulted
there). -/
def cf0 : Compression → List Byte → List Byte := fun _ l => l

/-- The bytes of the filename `"a.txt"`. -/
def aTxt : List Byte := [97, 46, 116, 120, 116]

/-- The bytes of the payload `b"hello"`. -/
def helloBytes : List Byte := [104, 101, 108, 108, 111]

/-- Entry options: filename `"a.txt"`, no extra field, no comment, `Stored`
compression. -/
def optsHello : EntryOptions := ⟨aTxt, [], [], .stored⟩

/-- A fresh writer, as `ZipFileWriter::new` produces it (line 37): no pending
entries, `written = 0`. -/
def w0 : ZipFileWriter := ⟨[], 0⟩

/-- A fresh sink. -/
def s0 : WState := ⟨[], 0⟩

/-- A `4294967296`-byte (`2 ^ 32`) payload of zero bytes. -/
def bigPayload : List Byte := List.replicate 4294967296 0

/-- Entry options for a second, one-byte-named entry (`"b"`). -/
def optsB : EntryOptions := ⟨[98], [], [], .stored⟩

/-- The writer after storing the `2 ^ 32`-byte payload as entry `"a.txt"`. -/
def wAfterBig : ZipFileWriter :=
  (w0.write_entry noFail cf0 0 0 s0 optsHello bigPayload).2.1

/-- The sink after storing the `2 ^ 32`-byte payload as entry `"a.txt"`. -/
def sAfterBig : WState :=
  (w0.write_entry noFail cf0 0 0 s0 optsHello bigPayload).2.2

/-- The writer after one successful whole entry `"a.txt"` / `b"hello"`:
it holds one pending central-directory entry named `"a.txt"`. -/
def wDup : ZipFileWriter :=
  (w0.write_entry noFail cf0 0 0 s0 optsHello helloBytes).2.1

/-- The sink after that first `"a.txt"` / `b"hello"` entry. -/
def sDup : WState :=
  (w0.write_entry noFail cf0 0 0 s0 optsHello helloBytes).2.2

/-- A filename of `65536` bytes (`97` repeated), one more than the header's
two-byte length field can state. -/
def longName : List Byte := List.replicate 65536 97

/-- Entry options carrying the oversized filename. -/
def optsLong : EntryOptions := ⟨longName, [], [], .stored⟩

/-- A `4294967296`-byte (`2 ^ 32`) extra field of zero bytes. -/
def bigExtra : List Byte := List.replicate 4294967296 0

/-- One completed `"a.txt"` / `b"hello"` central-directory entry. -/
def eHello : CentralDirectoryEntry :=
  ⟨entryCdh cf0 0 0 0 optsHello helloBytes, optsHello⟩

/-- A writer holding `65536` completed entries (the writer accepts duplicate
names, so this state is reachable by `65536` whole-entry writes). -/
def wMany : ZipFileWriter := ⟨List.replicate 65536 eHello, 0⟩

/-- A successful sink write, spelled out. -/
theorem sinkWrite_noFail (buf : List Byte) (s : WState) :
    sinkWrite noFail buf s = .ok (buf.length, ⟨s.sink ++ buf, s.calls + 1⟩) :=
  rfl

/-- The fixed local-file-header encoding is 26 bytes long. -/
theorem lfh_to_slice_length (h : LocalFileHeader) :
    h.to_slice.length = 26 := by
  simp [LocalFileHeader.to_slice, le2, le4]

/-- The fixed central-directory-header encoding is 42 bytes long. -/
theorem cdh_to_slice_length (h : CentralDirectoryHeader) :
    h.to_slice.length = 42 := by
  simp [CentralDirectoryHeader.to_slice, le2, le4]

/-- The fixed end-of-central-directory encoding is 18 bytes long. -/
theorem eocd_to_slice_length (h : EndOfCentralDirectoryHeader) :
    h.to_slice.length = 18 := by
  simp [EndOfCentralDirectoryHeader.to_slice, le2, le4]

/-- Length of the bytes a successful whole-entry write emits. -/
theorem entryBytes_length (cf : Compression → List Byte → List Byte)
    (mt md : Nat) (opts : EntryOptions) (raw : List Byte) :
    (entryBytes cf mt md opts raw).length =
      30 + opts.filename.length + opts.extra.length +
        (compressedOf cf opts.compression raw).length := by
  simp [entryBytes, lfh_to_slice_length, le4]
  omega

/-- Length of the bytes `close` emits for one central-directory entry. -/
theorem cdEntryBytes_length (e : CentralDirectoryEntry) :
    (cdEntryBytes e).length =
      46 + e.opts.filename.length + e.opts.extra.length +
        e.opts.comment.length := by
  simp [cdEntryBytes, cdh_to_slice_length, le4]
  omega

/-- With every write succeeding, `write_entry` returns `Ok`, appends exactly
one pending entry built with the pre-call `written` as its offset, advances
`written` by the emitted byte count, and appends exactly those bytes to the
sink in five write calls. -/
theorem write_entry_noFail (cf : Compression → List Byte → List Byte)
    (mt md : Nat) (w : ZipFileWriter) (s : WState) (opts : EntryOptions)
    (raw : List Byte) :
    w.write_entry noFail cf mt md s opts raw =
      (.ok (),
       ⟨w.cd_entries ++ [⟨entryCdh cf mt md w.written opts raw, opts⟩],
        w.written + (entryBytes cf mt md opts raw).length⟩,
       ⟨s.sink ++ entryBytes cf mt md opts raw, s.calls + 5⟩) := by
  simp [ZipFileWriter.write_entry, sinkWrite, noFail, entryBytes]
  omega

/-- The central-directory block of a snoc list splits at the last entry. -/
theorem cdBlockBytes_append (xs ys : List CentralDirectoryEntry) :
    cdBlockBytes (xs ++ ys) = cdBlockBytes xs ++ cdBlockBytes ys := by
  induction xs with
  | nil => simp [cdBlockBytes]
  | cons e rest ih => simp [cdBlockBytes, ih]

/-- With every write succeeding, the per-entry loop of `close` writes the
whole central-directory block, makes five write calls per entry, and returns
the wrapping `cd_size` accumulation. -/
theorem writeCdLoop_noFail (entries : List CentralDirectoryEntry)
    (cd_size : Nat) (s : WState) :
    writeCdLoop noFail entries cd_size s =
      (.ok (entries.foldl cdStep cd_size),
       ⟨s.sink ++ cdBlockBytes entries, s.calls + 5 * entries.length⟩) := by
  induction entries generalizing cd_size s with
  | nil => simp [writeCdLoop, cdBlockBytes]
  | cons e rest ih =>
    simp [writeCdLoop, sinkWrite, noFail, ih, cdBlockBytes, cdEntryBytes]
    omega

/-- The wrapping `cd_size` accumulation of `close` equals the true byte count
of the central-directory block reduced modulo `2 ^ 32`, for any in-range
starting accumulator. -/
theorem cdSize_eq_mod (entries : List CentralDirectoryEntry) (a : Nat)
    (ha : a < M32) :
    entries.foldl cdStep a = (a + (cdBlockBytes entries).length) % M32 := by
  induction entries generalizing a with
  | nil => simpa [cdBlockBytes] using (Nat.mod_eq_of_lt ha).symm
  | cons e rest ih =>
    have hstep : cdStep a e < M32 := Nat.mod_lt _ (by norm_num [M32])
    rw [List.foldl_cons, ih (cdStep a e) hstep]
    simp only [cdBlockBytes, List.length_append, cdEntryBytes_length, cdStep,
      M32]
    omega

/-- With every write succeeding, `close` returns `Ok` and appends the
central-directory block, the end-of-central-directory signature and the
record `eocdHeaderOf` describes, in `5 * entries + 2` write calls. -/
theorem close_noFail (w : ZipFileWriter) (s : WState) :
    w.close noFail s =
      (.ok (),
       ⟨s.sink ++ cdBlockBytes w.cd_entries ++ le4 EOCDD ++
          (eocdHeaderOf w).to_slice,
        s.calls + 5 * w.cd_entries.length + 2⟩) := by
  simp [ZipFileWriter.close, writeCdLoop_noFail, sinkWrite, noFail,
    eocdHeaderOf]

/-- CRC-32 of the payload bytes of `b"hello"` is `0x3610a686`. -/
theorem compute_crc_hello :
    compute_crc [104, 101, 108, 108, 111] = 0x3610a686 := by
  decide

/-- Writing a stored first entry `"a.txt"` whose payload holds `2 ^ 32`
bytes leaves the offset counter (and the sink) at `2 ^ 32 + 35` bytes, yet
a second entry is then recorded with `lh_offset = 35`: general form over any
such payload. -/
theorem offset_trunc_general (raw : List Byte)
    (hraw : raw.length = 4294967296) :
    (w0.write_entry noFail cf0 0 0 s0 optsHello raw).2.1.written =
      4294967296 + 35 ∧
    (w0.write_entry noFail cf0 0 0 s0 optsHello raw).2.2.sink.length =
      4294967296 + 35 ∧
    (((w0.write_entry noFail cf0 0 0 s0 optsHello raw).2.1.write_entry noFail
        cf0 0 0 (w0.write_entry noFail cf0 0 0 s0 optsHello raw).2.2 optsB
        []).2.1.cd_entries.map fun e => e.header.lh_offset) = [0, 35] := by
  have hb : (entryBytes cf0 0 0 optsHello raw).length = 4294967296 + 35 := by
    rw [entryBytes_length,
      show optsHello.filename.length = 5 from rfl,
      show optsHello.extra.length = 0 from rfl,
      show compressedOf cf0 optsHello.compression raw = raw from rfl, hraw]
  refine ⟨?_, ?_, ?_⟩
  · rw [write_entry_noFail]
    show w0.written + (entryBytes cf0 0 0 optsHello raw).length = _
    rw [hb]
    show (0 : Nat) + (4294967296 + 35) = 4294967296 + 35
    exact Nat.zero_add _
  · rw [write_entry_noFail]
    show (s0.sink ++ entryBytes cf0 0 0 optsHello raw).length = _
    rw [List.length_append, hb]
    show (0 : Nat) + (4294967296 + 35) = 4294967296 + 35
    exact Nat.zero_add _
  · rw [write_entry_noFail, write_entry_noFail]
    show [(entryCdh cf0 0 0 w0.written optsHello raw).lh_offset,
      (entryCdh cf0 0 0
        (w0.written + (entryBytes cf0 0 0 optsHello raw).length) optsB
        []).lh_offset] = [0, 35]
    show [(0 : Nat) % M32,
      (w0.written + (entryBytes cf0 0 0 optsHello raw).length) % M32] =
        [0, 35]
    rw [hb]
    show [(0 : Nat) % M32, ((0 : Nat) + (4294967296 + 35)) % M32] = [0, 35]
    norm_num [M32]

/-- The `2 ^ 32`-byte zero payload really holds `2 ^ 32` bytes. -/
theorem bigPayload_length : bigPayload.length = 4294967296 := by
  rw [show bigPayload = List.replicate 4294967296 0 from rfl,
    List.length_replicate]

/-- After one entry whose extra field holds `2 ^ 32` bytes, the central
directory block written by close is `2 ^ 32 + 51` bytes long but the
wrapping `cd_size` accumulation reports `51`: general form over any such
extra field. -/
theorem cdsize_trunc_general (x : List Byte) (hx : x.length = 4294967296) :
    (eocdHeaderOf (w0.write_entry noFail cf0 0 0 s0 ⟨aTxt, x, [], .stored⟩
        []).2.1).size_cent_dir = 51 ∧
    (cdBlockBytes (w0.write_entry noFail cf0 0 0 s0 ⟨aTxt, x, [], .stored⟩
        []).2.1.cd_entries).length = 4294967296 + 51 ∧
    ((w0.write_entry noFail cf0 0 0 s0 ⟨aTxt, x, [], .stored⟩
        []).2.1.close noFail
      (w0.write_entry noFail cf0 0 0 s0 ⟨aTxt, x, [], .stored⟩ []).2.2).1 =
        .ok () := by
  have hcd : (w0.write_entry noFail cf0 0 0 s0 ⟨aTxt, x, [], .stored⟩
      []).2.1.cd_entries =
      [⟨entryCdh cf0 0 0 0 ⟨aTxt, x, [], .stored⟩ [],
        ⟨aTxt, x, [], .stored⟩⟩] := by
    rw [write_entry_noFail]
    rfl
  refine ⟨?_, ?_, ?_⟩
  · show ((w0.write_entry noFail cf0 0 0 s0 ⟨aTxt, x, [], .stored⟩
        []).2.1.cd_entries.foldl cdStep 0) = 51
    rw [hcd]
    show cdStep 0 ⟨entryCdh cf0 0 0 0 ⟨aTxt, x, [], .stored⟩ [],
      ⟨aTxt, x, [], .stored⟩⟩ = 51
    show ((0 + (4 + 42 + aTxt.length % M32) % M32) % M32 +
      (x.length + ([] : List Byte).length) % M32) % M32 = 51
    rw [hx, show aTxt.length = 5 from rfl]
    norm_num [M32]
  · rw [hcd]
    show (cdEntryBytes ⟨entryCdh cf0 0 0 0 ⟨aTxt, x, [], .stored⟩ [],
      ⟨aTxt, x, [], .stored⟩⟩ ++ []).length = _
    rw [List.append_nil, cdEntryBytes_length]
    show 46 + aTxt.length + x.length + ([] : List Byte).length =
      4294967296 + 51
    rw [hx, show aTxt.length = 5 from rfl]
    norm_num
  · rw [close_noFail]

/-- The `2 ^ 32`-byte extra field really holds `2 ^ 32` bytes. -/
theorem bigExtra_length : bigExtra.length = 4294967296 := by
  rw [show bigExtra = List.replicate 4294967296 0 from rfl,
    List.length_replicate]

/-- A `65536`-byte filename is not rejected: the call succeeds, all
`30 + 65536` record bytes are written, and the header's filename-length
field silently becomes `0`: general form over any such filename. -/
theorem width_trunc_general (f : List Byte) (hf : f.length = 65536) :
    (w0.write_entry noFail cf0 0 0 s0 ⟨f, [], [], .stored⟩ []).1 = .ok () ∧
    (w0.write_entry noFail cf0 0 0 s0 ⟨f, [], [],
      .stored⟩ []).2.2.sink.length = 65566 ∧
    (entryLfh cf0 0 0 ⟨f, [], [], .stored⟩ []).file_name_length = 0 := by
  refine ⟨?_, ?_, ?_⟩
  · rw [write_entry_noFail]
  · rw [write_entry_noFail]
    show (s0.sink ++ entryBytes cf0 0 0 ⟨f, [], [], .stored⟩ []).length = _
    rw [List.length_append, entryBytes_length]
    show (0 : Nat) + (30 + f.length + ([] : List Byte).length +
      ([] : List Byte).length) = 65566
    rw [hf]
    norm_num
  · show f.length % M16 = 0
    rw [hf]
    norm_num [M16]

/-- The oversized filename really holds `65536` bytes. -/
theorem longName_length : longName.length = 65536 := by
  rw [show longName = List.replicate 65536 97 from rfl, List.length_replicate]

/-- With `65536` completed entries the end-of-central-directory entry counts
wrap to `0` while close still succeeds: general form over any such pending
list. -/
theorem count_trunc_general (l : List CentralDirectoryEntry)
    (hl : l.length = 65536) :
    (eocdHeaderOf ⟨l, 0⟩).num_of_entries = 0 ∧
    (eocdHeaderOf ⟨l, 0⟩).num_of_entries_disk = 0 ∧
    ((⟨l, 0⟩ : ZipFileWriter).close noFail s0).1 = .ok () := by
  refine ⟨?_, ?_, ?_⟩
  · show l.length % M16 = 0
    rw [hl]
    norm_num [M16]
  · show l.length % M16 = 0
    rw [hl]
    norm_num [M16]
  · rw [close_noFail]

/-- The `65536`-entry pending list really holds `65536` entries. -/
theorem wMany_length : wMany.cd_entries.length = 65536 := by
  rw [show wMany.cd_entries = List.replicate 65536 eHello from rfl,
    List.length_replicate]

/-- C1: for every payload, every compression choice (any behaviour of the
opaque compressor) and any prior writer state, a successful `write_entry`
records a pending central-directory entry whose `crc` field is the CRC-32 of
the original uncompressed payload — never of the compressed bytes — and
`close` then serializes exactly that record into the central directory. -/
theorem C1_cd_crc_is_payload_crc (cf : Compression → List Byte → List Byte)
    (mt md : Nat) (w : ZipFileWriter) (s : WState) (opts : EntryOptions)
    (raw : List Byte) :
    (w.write_entry noFail cf mt md s opts raw).1 = .ok () ∧
    (w.write_entry noFail cf mt md s opts raw).2.1.cd_entries =
      w.cd_entries ++ [⟨entryCdh cf mt md w.written opts raw, opts⟩] ∧
    (entryCdh cf mt md w.written opts raw).crc = compute_crc raw ∧
    ((w.write_entry noFail cf mt md s opts raw).2.1.close noFail
        (w.write_entry noFail cf mt md s opts raw).2.2).2.sink =
      (w.write_entry noFail cf mt md s opts raw).2.2.sink ++
        cdBlockBytes w.cd_entries ++
        cdEntryBytes ⟨entryCdh cf mt md w.written opts raw, opts⟩ ++
        le4 EOCDD ++
        (eocdHeaderOf
          (w.write_entry noFail cf mt md s opts raw).2.1).to_slice := by
  simp [write_entry_noFail, close_noFail, cdBlockBytes_append, cdBlockBytes,
    entryCdh, entryLfh, List.append_assoc]

/-- C2 (amended): whenever the writer's `written` counter matches the sink
offset — as holds along every successful call sequence, the last conjunct —
a successful `write_entry` records exactly one entry whose `lh_offset` is
the sink's cumulative offset immediately before the entry's
local-file-header signature was written, reduced modulo `2 ^ 32` (the `as
u32` cast; equal to the offset itself whenever it is below `2 ^ 32`). -/
theorem C2_lh_offset_mod (cf : Compression → List Byte → List Byte)
    (mt md : Nat) (w : ZipFileWriter) (s : WState) (opts : EntryOptions)
    (raw : List Byte) (hinv : w.written = s.sink.length) :
    (w.write_entry noFail cf mt md s opts raw).2.1.cd_entries =
      w.cd_entries ++ [⟨entryCdh cf mt md w.written opts raw, opts⟩] ∧
    (entryCdh cf mt md w.written opts raw).lh_offset =
      s.sink.length % M32 ∧
    (w.write_entry noFail cf mt md s opts raw).2.2.sink =
      s.sink ++ entryBytes cf mt md opts raw ∧
    (w.write_entry noFail cf mt md s opts raw).2.1.written =
      (w.write_entry noFail cf mt md s opts raw).2.2.sink.length := by
  simp [write_entry_noFail, entryCdh, hinv]

/-- C2 witness: the amended statement at a concrete input — a fresh writer,
a fresh sink, the stored `"a.txt"` / `b"hello"` entry. -/
theorem C2_lh_offset_mod_witness :
    (w0.write_entry noFail cf0 0 0 s0 optsHello helloBytes).2.1.cd_entries =
      w0.cd_entries ++
        [⟨entryCdh cf0 0 0 w0.written optsHello helloBytes, optsHello⟩] ∧
    (entryCdh cf0 0 0 w0.written optsHello helloBytes).lh_offset =
      s0.sink.length % M32 ∧
    (w0.write_entry noFail cf0 0 0 s0 optsHello helloBytes).2.2.sink =
      s0.sink ++ entryBytes cf0 0 0 optsHello helloBytes ∧
    (w0.write_entry noFail cf0 0 0 s0 optsHello helloBytes).2.1.written =
      (w0.write_entry noFail cf0 0 0 s0 optsHello helloBytes).2.2.sink.length :=
  C2_lh_offset_mod cf0 0 0 w0 s0 optsHello helloBytes rfl

/-- C2 counterexample: after a stored `2 ^ 32`-byte first entry the writer's
cumulative offset before the second entry's signature is `2 ^ 32 + 35` (and
the sink indeed holds that many bytes), yet the entry recorded for the second
call carries `lh_offset = 35`, not `2 ^ 32 + 35`. -/
theorem C2_offset_cex :
    wAfterBig.written = 4294967296 + 35 ∧
    sAfterBig.sink.length = 4294967296 + 35 ∧
    ((wAfterBig.write_entry noFail cf0 0 0 sAfterBig optsB
        []).2.1.cd_entries.map fun e => e.header.lh_offset) = [0, 35] ∧
    (35 : Nat) ≠ 4294967296 + 35 :=
  ⟨(offset_trunc_general bigPayload bigPayload_length).1,
   (offset_trunc_general bigPayload bigPayload_length).2.1,
   (offset_trunc_general bigPayload bigPayload_length).2.2,
   by norm_num⟩

/-- C3 (amended): `close` succeeds whenever the sink does, writing the whole
central-directory block then the terminal record, whose `cent_dir_offset`
is the `written` offset captured at the start of close reduced modulo
`2 ^ 32` and whose `size_cent_dir` is the exact byte count of all
central-directory signatures, fixed headers, filenames, extra fields and
comments written during close, reduced modulo `2 ^ 32` (both equal the
exact values whenever those are below `2 ^ 32`). -/
theorem C3_close_offsets_mod (w : ZipFileWriter) (s : WState) :
    w.close noFail s =
      (.ok (),
       ⟨s.sink ++ cdBlockBytes w.cd_entries ++ le4 EOCDD ++
          (eocdHeaderOf w).to_slice,
        s.calls + 5 * w.cd_entries.length + 2⟩) ∧
    (eocdHeaderOf w).cent_dir_offset = w.written % M32 ∧
    (eocdHeaderOf w).size_cent_dir =
      (cdBlockBytes w.cd_entries).length % M32 :=
  ⟨close_noFail w s, rfl, by
    simpa [eocdHeaderOf] using
      cdSize_eq_mod w.cd_entries 0 (by norm_num [M32])⟩

/-- C3 counterexample: one pending entry whose extra field holds `2 ^ 32`
bytes makes the central-directory block `2 ^ 32 + 51` bytes long, yet the
`size_cent_dir` field of the record close writes is `51`, not the exact
byte count. -/
theorem C3_size_cex :
    (eocdHeaderOf (w0.write_entry noFail cf0 0 0 s0 ⟨aTxt, bigExtra, [],
        .stored⟩ []).2.1).size_cent_dir = 51 ∧
    (cdBlockBytes (w0.write_entry noFail cf0 0 0 s0 ⟨aTxt, bigExtra, [],
        .stored⟩ []).2.1.cd_entries).length = 4294967296 + 51 ∧
    ((w0.write_entry noFail cf0 0 0 s0 ⟨aTxt, bigExtra, [],
        .stored⟩ []).2.1.close noFail
      (w0.write_entry noFail cf0 0 0 s0 ⟨aTxt, bigExtra, [],
        .stored⟩ []).2.2).1 = .ok () ∧
    (eocdHeaderOf (w0.write_entry noFail cf0 0 0 s0 ⟨aTxt, bigExtra, [],
        .stored⟩ []).2.1).size_cent_dir ≠
      (cdBlockBytes (w0.write_entry noFail cf0 0 0 s0 ⟨aTxt, bigExtra, [],
        .stored⟩ []).2.1.cd_entries).length := by
  have h := cdsize_trunc_general bigExtra bigExtra_length
  refine ⟨h.1, h.2.1, h.2.2, fun hc => ?_⟩
  rw [h.1, h.2.1] at hc
  exact absurd hc (by norm_num)

/-- C4: the concrete scenario: one whole entry `"a.txt"` / `b"hello"` under
`Stored`, then close. The local header states sizes `5`/`5` and CRC
`0x3610a686`; the sink holds the signature, the 26-byte header, the name,
then exactly the bytes of `b"hello"`; the single central-directory record
repeats those fields with `lh_offset = 0`; the terminal record counts one
entry and places the central directory at offset `40 = 4 + 26 + 5 + 5`.
(`mt` and `md` are the call's wall-clock DOS time and date, and `cf` the
opaque compressor, which `Stored` never consults; no claimed field depends
on them.) -/
theorem C4_concrete_scenario (cf : Compression → List Byte → List Byte)
    (mt md : Nat) :
    (entryLfh cf mt md optsHello helloBytes).compressed_size = 5 ∧
    (entryLfh cf mt md optsHello helloBytes).uncompressed_size = 5 ∧
    (entryLfh cf mt md optsHello helloBytes).crc = 0x3610a686 ∧
    (w0.write_entry noFail cf mt md s0 optsHello helloBytes).1 = .ok () ∧
    (w0.write_entry noFail cf mt md s0 optsHello helloBytes).2.2.sink =
      le4 LFHD ++ (entryLfh cf mt md optsHello helloBytes).to_slice ++
        aTxt ++ helloBytes ∧
    (w0.write_entry noFail cf mt md s0 optsHello helloBytes).2.1.cd_entries =
      [⟨entryCdh cf mt md 0 optsHello helloBytes, optsHello⟩] ∧
    (entryCdh cf mt md 0 optsHello helloBytes).compressed_size = 5 ∧
    (entryCdh cf mt md 0 optsHello helloBytes).uncompressed_size = 5 ∧
    (entryCdh cf mt md 0 optsHello helloBytes).crc = 0x3610a686 ∧
    (entryCdh cf mt md 0 optsHello helloBytes).lh_offset = 0 ∧
    (eocdHeaderOf
        (w0.write_entry noFail cf mt md s0 optsHello
          helloBytes).2.1).num_of_entries = 1 ∧
    (eocdHeaderOf
        (w0.write_entry noFail cf mt md s0 optsHello
          helloBytes).2.1).cent_dir_offset = 40 ∧
    ((w0.write_entry noFail cf mt md s0 optsHello helloBytes).2.1.close noFail
        (w0.write_entry noFail cf mt md s0 optsHello helloBytes).2.2).2.sink =
      (w0.write_entry noFail cf mt md s0 optsHello helloBytes).2.2.sink ++
        cdEntryBytes ⟨entryCdh cf mt md 0 optsHello helloBytes, optsHello⟩ ++
        le4 EOCDD ++
        (eocdHeaderOf
          (w0.write_entry noFail cf mt md s0 optsHello
            helloBytes).2.1).to_slice := by
  refine ⟨?_, ?_, ?_, ?_, ?_, ?_, ?_, ?_, ?_, ?_, ?_, ?_, ?_⟩
  · simp only [entryLfh, helloBytes, optsHello, compressedOf]
    norm_num [M32]
  · simp only [entryLfh, helloBytes]
    norm_num [M32]
  · simp only [entryLfh, helloBytes, compute_crc_hello]
  · rw [write_entry_noFail]
  · rw [write_entry_noFail]
    show s0.sink ++ entryBytes cf mt md optsHello helloBytes = _
    rw [entryBytes]
    show [] ++ _ = _
    rw [List.nil_append]
    rfl
  · rw [write_entry_noFail]
    rfl
  · simp only [entryCdh, entryLfh, helloBytes, optsHello, compressedOf]
    norm_num [M32]
  · simp only [entryCdh, entryLfh, helloBytes]
    norm_num [M32]
  · simp only [entryCdh, entryLfh, helloBytes, compute_crc_hello]
  · simp only [entryCdh]
    norm_num [M32]
  · rw [write_entry_noFail]
    show (List.length (w0.cd_entries ++ _)) % M16 = 1
    simp [w0, M16]
  · rw [write_entry_noFail]
    show (w0.written + (entryBytes cf mt md optsHello helloBytes).length)
        % M32 = 40
    simp only [w0, entryBytes_length, optsHello, compressedOf, aTxt,
      helloBytes]
    norm_num [M32]
  · rw [write_entry_noFail, close_noFail]
    show _ ++ cdBlockBytes (w0.cd_entries ++ _) ++ _ ++ _ = _
    rw [cdBlockBytes_append]
    show _ ++ (cdBlockBytes w0.cd_entries ++ _) ++ _ ++ _ = _
    rw [show cdBlockBytes w0.cd_entries = [] from rfl, List.nil_append]
    show _ ++ (cdEntryBytes _ ++ cdBlockBytes []) ++ _ ++ _ = _
    rw [show cdBlockBytes [] = [] from rfl, List.append_nil]
    rfl

/-- C5: under `Stored` compression the local and central headers carry equal
compressed and uncompressed sizes, and the entry data written to the sink is
exactly the input payload, unchanged. -/
theorem C5_store_identity (cf : Compression → List Byte → List Byte)
    (mt md : Nat) (w : ZipFileWriter) (s : WState) (f x c raw : List Byte) :
    (entryLfh cf mt md ⟨f, x, c, .stored⟩ raw).compressed_size =
      (entryLfh cf mt md ⟨f, x, c, .stored⟩ raw).uncompressed_size ∧
    (entryCdh cf mt md w.written ⟨f, x, c, .stored⟩ raw).compressed_size =
      (entryCdh cf mt md w.written ⟨f, x, c, .stored⟩ raw).uncompressed_size ∧
    (w.write_entry noFail cf mt md s ⟨f, x, c, .stored⟩ raw).1 = .ok () ∧
    (w.write_entry noFail cf mt md s ⟨f, x, c, .stored⟩ raw).2.2.sink =
      s.sink ++ le4 LFHD ++
        (entryLfh cf mt md ⟨f, x, c, .stored⟩ raw).to_slice ++ f ++ x ++
        raw := by
  simp [write_entry_noFail, entryLfh, entryCdh, entryBytes, compressedOf,
    List.append_assoc]

/-- C6 (amended): `write_entry` performs no duplicate-name detection: even
when a pending central-directory entry already carries the same filename,
the call succeeds, writes the whole record, and appends a second pending
entry under that filename. -/
theorem C6_duplicate_accepted (cf : Compression → List Byte → List Byte)
    (mt md : Nat) (w : ZipFileWriter) (s : WState) (opts : EntryOptions)
    (raw : List Byte)
    (hdup : opts.filename ∈ w.cd_entries.map fun e => e.opts.filename) :
    (w.write_entry noFail cf mt md s opts raw).1 = .ok () ∧
    (w.write_entry noFail cf mt md s opts raw).2.1.cd_entries =
      w.cd_entries ++ [⟨entryCdh cf mt md w.written opts raw, opts⟩] ∧
    (w.write_entry noFail cf mt md s opts raw).2.2.sink =
      s.sink ++ entryBytes cf mt md opts raw := by
  simp [write_entry_noFail]

/-- C6 witness: the amended statement at a concrete input — a writer
already holding a pending `"a.txt"` entry and a second `"a.txt"` entry. -/
theorem C6_duplicate_accepted_witness :
    (wDup.write_entry noFail cf0 0 0 sDup optsHello helloBytes).1 = .ok () ∧
    (wDup.write_entry noFail cf0 0 0 sDup optsHello helloBytes).2.1.cd_entries =
      wDup.cd_entries ++
        [⟨entryCdh cf0 0 0 wDup.written optsHello helloBytes, optsHello⟩] ∧
    (wDup.write_entry noFail cf0 0 0 sDup optsHello helloBytes).2.2.sink =
      sDup.sink ++ entryBytes cf0 0 0 optsHello helloBytes :=
  C6_duplicate_accepted cf0 0 0 wDup sDup optsHello helloBytes
    (by simp [wDup, write_entry_noFail])

/-- C6 counterexample: the writer already holds a pending entry named
`"a.txt"`, yet a second `write_entry` with the same filename returns `Ok`
instead of a naming-conflict error, writes `40` more bytes instead of none,
and leaves two pending entries. -/
theorem C6_duplicate_cex :
    (optsHello.filename ∈ wDup.cd_entries.map fun e => e.opts.filename) ∧
    (wDup.write_entry noFail cf0 0 0 sDup optsHello helloBytes).1 = .ok () ∧
    (wDup.write_entry noFail cf0 0 0 sDup optsHello
      helloBytes).2.2.sink.length = sDup.sink.length + 40 ∧
    (wDup.write_entry noFail cf0 0 0 sDup optsHello
      helloBytes).2.1.cd_entries.length = 2 := by
  refine ⟨?_, ?_, ?_, ?_⟩
  · show optsHello.filename ∈
      ((w0.write_entry noFail cf0 0 0 s0 optsHello
        helloBytes).2.1).cd_entries.map fun e => e.opts.filename
    rw [write_entry_noFail]
    exact List.Mem.head _
  · rw [write_entry_noFail]
  · rw [write_entry_noFail]
    show (sDup.sink ++ entryBytes cf0 0 0 optsHello helloBytes).length = _
    rw [List.length_append, entryBytes_length,
      show optsHello.filename.length = 5 from rfl,
      show optsHello.extra.length = 0 from rfl,
      show (compressedOf cf0 optsHello.compression helloBytes).length = 5
        from rfl]
  · rw [write_entry_noFail, List.length_append]
    show wDup.cd_entries.length + 1 = 2
    show ((w0.write_entry noFail cf0 0 0 s0 optsHello
      helloBytes).2.1).cd_entries.length + 1 = 2
    rw [write_entry_noFail]
    rfl

/-- C7 (amended): no width validation happens anywhere in `write_entry`: the
call succeeds for every option and payload, writes all the record's bytes,
and silently encodes each length field reduced modulo its width — `2 ^ 16`
for the filename, extra-field and comment lengths, `2 ^ 32` for the
compressed and uncompressed sizes — instead of rejecting oversized values
before writing. -/
theorem C7_no_width_validation (cf : Compression → List Byte → List Byte)
    (mt md : Nat) (w : ZipFileWriter) (s : WState) (opts : EntryOptions)
    (raw : List Byte) :
    (w.write_entry noFail cf mt md s opts raw).1 = .ok () ∧
    (entryLfh cf mt md opts raw).file_name_length =
      opts.filename.length % M16 ∧
    (entryLfh cf mt md opts raw).extra_field_length =
      opts.extra.length % M16 ∧
    (entryCdh cf mt md w.written opts raw).file_comment_length =
      opts.comment.length % M16 ∧
    (entryLfh cf mt md opts raw).compressed_size =
      (compressedOf cf opts.compression raw).length % M32 ∧
    (entryLfh cf mt md opts raw).uncompressed_size = raw.length % M32 ∧
    (w.write_entry noFail cf mt md s opts raw).2.2.sink =
      s.sink ++ entryBytes cf mt md opts raw := by
  simp [write_entry_noFail, entryLfh, entryCdh]

/-- C7 counterexample: a `65536`-byte filename exceeds the 16-bit
filename-length field, yet the call succeeds, all `4 + 26 + 65536` bytes of
the record reach the sink, and the header's filename-length field silently
becomes `0`: nothing is rejected before writing. -/
theorem C7_width_cex :
    optsLong.filename.length = 65536 ∧
    (w0.write_entry noFail cf0 0 0 s0 optsLong []).1 = .ok () ∧
    (w0.write_entry noFail cf0 0 0 s0 optsLong []).2.2.sink.length = 65566 ∧
    (entryLfh cf0 0 0 optsLong []).file_name_length = 0 :=
  ⟨longName_length,
   (width_trunc_general longName longName_length).1,
   (width_trunc_general longName longName_length).2.1,
   (width_trunc_general longName longName_length).2.2⟩

/-- C8: the streaming interface never reports misuse through an error
value: the body of `stream_write_entry` is only the `unimplemented` abort
macro, so every call — misuse or not — diverges (aborts the task) instead
of returning a `Result`. -/
theorem C8_stream_diverges (w : ZipFileWriter) (opts : EntryOptions) :
    w.stream_write_entry opts = .diverges := rfl

/-- C9 (amended): the end-of-central-directory record `close` writes carries
equal per-disk and total entry counts — both the number of completed entries
reduced modulo `2 ^ 16` (the `as u16` cast; equal to the count whenever it
is below `65536`) — and zero disk-number fields. -/
theorem C9_eocd_counts (w : ZipFileWriter) (s : WState) :
    (eocdHeaderOf w).num_of_entries_disk = (eocdHeaderOf w).num_of_entries ∧
    (eocdHeaderOf w).num_of_entries = w.cd_entries.length % M16 ∧
    (eocdHeaderOf w).disk_num = 0 ∧
    (eocdHeaderOf w).start_cent_dir_disk = 0 ∧
    w.close noFail s =
      (.ok (),
       ⟨s.sink ++ cdBlockBytes w.cd_entries ++ le4 EOCDD ++
          (eocdHeaderOf w).to_slice,
        s.calls + 5 * w.cd_entries.length + 2⟩) :=
  ⟨rfl, rfl, rfl, rfl, close_noFail w s⟩

/-- C9 counterexample: a writer holding `65536` completed entries (reachable,
since duplicate names are accepted) closes successfully, yet both entry
counts in the end-of-central-directory record are `0`, not `65536`. -/
theorem C9_count_cex :
    wMany.cd_entries.length = 65536 ∧
    (eocdHeaderOf wMany).num_of_entries = 0 ∧
    (eocdHeaderOf wMany).num_of_entries_disk = 0 ∧
    (wMany.close noFail s0).1 = .ok () :=
  ⟨wMany_length,
   (count_trunc_general (List.replicate 65536 eHello) wMany_length).1,
   (count_trunc_general (List.replicate 65536 eHello) wMany_length).2.1,
   (count_trunc_general (List.replicate 65536 eHello) wMany_length).2.2⟩

/-- C10: the pending central-directory list is updated atomically: a
`write_entry` call that fails on any of its five sink writes returns the
error with `cd_entries` exactly as it was, and a successful call appends
fresh exactly one entry after all of the entry's bytes — signature, fixed
header, filename, extra field, data — have reached the sink. -/
theorem C10_cd_entries_atomic (fail : Nat → Bool)
    (cf : Compression → List Byte → List Byte) (mt md : Nat)
    (w : ZipFileWriter) (s : WState) (opts : EntryOptions)
    (raw : List Byte) :
    ((w.write_entry fail cf mt md s opts raw).1 = .error () →
      (w.write_entry fail cf mt md s opts raw).2.1.cd_entries =
        w.cd_entries) ∧
    ((w.write_entry fail cf mt md s opts raw).1 = .ok () →
      (w.write_entry fail cf mt md s opts raw).2.1.cd_entries =
        w.cd_entries ++ [⟨entryCdh cf mt md w.written opts raw, opts⟩] ∧
      (w.write_entry fail cf mt md s opts raw).2.2.sink =
        s.sink ++ entryBytes cf mt md opts raw) := by
  unfold ZipFileWriter.write_entry
  by_cases h1 : fail s.calls
  · simp [sinkWrite, h1]
  · by_cases h2 : fail (s.calls + 1)
    · simp [sinkWrite, h1, h2]
    · by_cases h3 : fail (s.calls + 2)
      · simp [sinkWrite, h1, h2, h3]
      · by_cases h4 : fail (s.calls + 3)
        · simp [sinkWrite, h1, h2, h3, h4]
        · by_cases h5 : fail (s.calls + 4)
          · simp [sinkWrite, h1, h2, h3, h4, h5]
          · simp [sinkWrite, h1, h2, h3, h4, h5, entryBytes,
              List.append_assoc]
